import Mathlib

/-!
Verification of the realtime multiplayer session coordinator of the cvua
chess platform.

The repository contains two parallel implementations of the coordinator:
an express server (src/server/routes.ts, namespace `Srv` below) backed by
the Drizzle storage layer (DbStorage, namespace `Store`), and a Cloudflare
worker (src/worker/src/index.ts, namespace `Wkr`) backed by a D1 database.
Both are embedded shallowly: WebSocket connections become abstract numeric
ids, the mutable room/queue/database state becomes explicit state passing,
and every `send` becomes an entry in a returned message list, in source
order.  The external chess.js rules engine (an external collaborator, out
of the spec's scope) is a function parameter `engine : fen -> from -> to ->
promotion -> Option fen`; `none` models both a falsy result and a thrown
exception of `game.move`.  JavaScript truthiness tests on numbers and
strings are modelled by `truthyNat` / `truthyStr`.
-/

namespace Cvua

/-- Connection role inside a room: white seat, black seat, or spectator. -/
inductive Role where
  | w
  | b
  | s
deriving DecidableEq

/-- Coordinator-to-client messages (the union of both implementations'
payloads).  `move` is the express server's payload (engine fen plus
`senderId`); `wmove` is the worker's payload (client fen, no sender id). -/
inductive SMsg where
  | stats (count : Nat)
  | role (r : Role) (waiting : Bool)
  | state (fen : String)
  | opponentInfo (id : Nat) (username : String)
  | playerInfo (color : Role) (id : Nat) (username : String)
  | startGame (color : Role)
  | move (src dst promotion fen : String) (senderId : Option Nat)
  | wmove (src dst promotion fen : String)
  | chat (text sender : String)
  | gameOver (result : Option String)
  | matchFound (roomId : String)
deriving DecidableEq

/-- JavaScript truthiness of an optional number (`undefined` and `0` are
falsy). -/
def truthyNat : Option Nat → Bool
  | some n => n != 0
  | none => false

/-- JavaScript truthiness of an optional string (`undefined`, `null` and
`""` are falsy). -/
def truthyStr : Option String → Bool
  | some s => s != ""
  | none => false

/-- `promotion || 'q'` as it appears in both move handlers. -/
def promoOr (p : Option String) : String :=
  if truthyStr p then p.getD "" else "q"

/-- JS `Set.add`: append if absent, keep insertion order. -/
def addSet (l : List Nat) (x : Nat) : List Nat :=
  if x ∈ l then l else l ++ [x]

/-- The FEN of `new Chess()` (chess.js's initial position). -/
def startFen : String :=
  "rnbqkbnr/pppppppp/8/8/8/8/PPPPPPPP/RNBQKBNR w KQkq - 0 1"

/-- A proposed move as carried by a `move` event (`move.from`, `move.to`). -/
structure MoveArg where
  src : String
  dst : String
deriving DecidableEq

namespace Store

/-- One row of the `users` table (the columns the coordinator touches). -/
structure UserRec where
  id : Nat
  rating : Nat
  gamesPlayed : Nat
  wins : Nat
  losses : Nat
  draws : Nat
deriving DecidableEq

/-- One row of the `games` table, as written at settlement. -/
structure GameRec where
  whitePlayerId : Option Nat
  blackPlayerId : Option Nat
  result : Option String
  pgn : String
deriving DecidableEq

/-- The durable store touched by settlement. -/
structure Db where
  users : List UserRec
  games : List GameRec
deriving DecidableEq

/-- `storage.getUser` / `SELECT ... WHERE id = ?` (first matching row). -/
def getUser (db : Db) (i : Nat) : Option UserRec :=
  db.users.find? (fun u => u.id == i)

/-- The row update performed by `DbStorage.updateUserRating`: set the new
rating and increment `gamesPlayed`. -/
def setRating (i : Nat) (newRating : Nat) (u : UserRec) : UserRec :=
  if u.id == i then
    { u with rating := newRating, gamesPlayed := u.gamesPlayed + 1 }
  else u

/-- `DbStorage.updateUserRating` (src/unnamed/part_005): no-op when the user
does not exist, otherwise set `rating := newRating` and bump
`gamesPlayed`. -/
def updateUserRating (db : Db) (i : Nat) (newRating : Nat) : Db :=
  match getUser db i with
  | none => db
  | some _ => { db with users := db.users.map (setRating i newRating) }

/-- `storage.createGame` / D1 `INSERT INTO games`. -/
def createGame (db : Db) (g : GameRec) : Db :=
  { db with games := db.games ++ [g] }

end Store

namespace Srv

open Store

/-- The express server's per-room record (interface `Room` in
src/server/routes.ts).  The chess.js instance `room.game` is represented by
the FEN it holds. -/
structure Room where
  clients : List Nat
  fen : Option String
  game : Option String
  white : Option Nat
  black : Option Nat
  whiteId : Option Nat
  blackId : Option Nat
  whiteUsername : Option String
  blackUsername : Option String
  started : Bool
  spectators : List Nat
deriving DecidableEq

/-- A freshly created room: `{ id, clients: new Set(), spectators: new
Set(), game: new Chess(), fen: game.fen() }`. -/
def mkRoom : Room :=
  { clients := []
    fen := some startFen
    game := some startFen
    white := none
    black := none
    whiteId := none
    blackId := none
    whiteUsername := none
    blackUsername := none
    started := false
    spectators := [] }

/-- Seat assignment of the `join` handler (routes.ts lines 457-473): the
joiner is added to `clients`, then takes white if free, else black if
free, else joins the spectator set.  `whiteId`/`whiteUsername` are only
recorded when truthy resp. a string. -/
def assignSeat (room : Room) (ws : Nat) (userId : Option Nat)
    (username : Option String) : Room × Role :=
  let cl := addSet room.clients ws
  if room.white.isNone then
    ({ room with
        clients := cl
        white := some ws
        whiteId := if truthyNat userId then userId else room.whiteId
        whiteUsername := if username.isSome then username
          else room.whiteUsername }, Role.w)
  else if room.black.isNone then
    ({ room with
        clients := cl
        black := some ws
        blackId := if truthyNat userId then userId else room.blackId
        blackUsername := if username.isSome then username
          else room.blackUsername }, Role.b)
  else
    ({ room with
        clients := cl
        spectators := addSet room.spectators ws },
      Role.s)

/-- The state left behind by the `join` handler: the seat assignment,
plus the `started` flag set when both seats are occupied and the room had
not been marked started yet (routes.ts lines 502-503). -/
def joinState (room : Room) (ws : Nat) (userId : Option Nat)
    (username : Option String) : Room :=
  let room1 := (assignSeat room ws userId username).1
  if room1.white.isSome && room1.black.isSome && !room1.started then
    { room1 with started := true }
  else room1

/-- The messages sent by the `join` handler, in source order: `stats` to
every client, `role` to the joiner, `state` when a fen is present, then
the both-seats-filled block (opponent info for a seated joiner, player
info for a spectator joiner, and — when the room was not yet started —
the one-shot opponent-info pair and `start_game` pair). -/
def joinMsgs (room : Room) (ws : Nat) (userId : Option Nat)
    (username : Option String) : List (Nat × SMsg) :=
  let ar := assignSeat room ws userId username
  let room1 := ar.1
  let role := ar.2
  let statsMsgs := room1.clients.map
    (fun c => (c, SMsg.stats room1.clients.length))
  let waiting := (role != Role.s) &&
    !(room1.white.isSome && room1.black.isSome)
  let roleMsg := [(ws, SMsg.role role waiting)]
  let stateMsg :=
    if truthyStr room1.fen then [(ws, SMsg.state (room1.fen.getD ""))]
    else []
  if room1.white.isSome && room1.black.isSome then
    let oppJoiner :=
      if room1.white == some ws && truthyNat room1.blackId &&
          truthyStr room1.blackUsername then
        [(ws, SMsg.opponentInfo (room1.blackId.getD 0)
          (room1.blackUsername.getD ""))]
      else if room1.black == some ws && truthyNat room1.whiteId &&
          truthyStr room1.whiteUsername then
        [(ws, SMsg.opponentInfo (room1.whiteId.getD 0)
          (room1.whiteUsername.getD ""))]
      else []
    let specMsgs :=
      if ws ∈ room1.spectators then
        (if truthyNat room1.whiteId && truthyStr room1.whiteUsername then
          [(ws, SMsg.playerInfo Role.w (room1.whiteId.getD 0)
            (room1.whiteUsername.getD ""))]
         else []) ++
        (if truthyNat room1.blackId && truthyStr room1.blackUsername then
          [(ws, SMsg.playerInfo Role.b (room1.blackId.getD 0)
            (room1.blackUsername.getD ""))]
         else [])
      else []
    if !room1.started then
      let startInfo :=
        if truthyNat room1.whiteId && truthyNat room1.blackId &&
            truthyStr room1.whiteUsername && truthyStr room1.blackUsername
            then
          [(room1.white.getD 0, SMsg.opponentInfo (room1.blackId.getD 0)
              (room1.blackUsername.getD "")),
           (room1.black.getD 0, SMsg.opponentInfo (room1.whiteId.getD 0)
              (room1.whiteUsername.getD ""))]
        else []
      statsMsgs ++ roleMsg ++ stateMsg ++ oppJoiner ++ specMsgs ++
        startInfo ++
        [(room1.white.getD 0, SMsg.startGame Role.w),
         (room1.black.getD 0, SMsg.startGame Role.b)]
    else
      statsMsgs ++ roleMsg ++ stateMsg ++ oppJoiner ++ specMsgs
  else
    statsMsgs ++ roleMsg ++ stateMsg

/-- The `join` message handler of the express server (routes.ts lines
448-521), for an already-looked-up room. -/
def joinRoom (room : Room) (ws : Nat) (userId : Option Nat)
    (username : Option String) : Room × List (Nat × SMsg) :=
  (joinState room ws userId username, joinMsgs room ws userId username)

/-- The chess.js position the move handler operates on: `room.game`, or
`new Chess(room.fen || undefined)` when no instance exists yet (a falsy
fen yields the initial position). -/
def effGame (room : Room) : String :=
  match room.game with
  | some g => g
  | none => if truthyStr room.fen then room.fen.getD "" else startFen

/-- The `move` message handler of the express server (routes.ts lines
523-552).  `engine fen src dst promo` abstracts
`new Chess(fen).move({from, to, promotion})`; `none` covers both a falsy
result and a thrown exception.  A rejected move leaves the position
untouched and sends nothing; an accepted move stores the engine-computed
fen and fans it out to every client except the sender. -/
def moveRoom (engine : String → String → String → String → Option String)
    (room : Room) (ws : Nat) (senderId : Option Nat) (mv : Option MoveArg)
    (promotion : Option String) : Room × List (Nat × SMsg) :=
  match mv with
  | none => (room, [])
  | some m =>
    if m.src != "" && m.dst != "" then
      let g0 := effGame room
      match engine g0 m.src m.dst (promoOr promotion) with
      | none => ({ room with game := some g0 }, [])
      | some f2 =>
        ({ room with game := some f2, fen := some f2 },
          (room.clients.filter (fun c => c != ws)).map
            (fun c => (c, SMsg.move m.src m.dst (promoOr promotion) f2
              senderId)))
    else (room, [])

/-- The `game_over` message handler of the express server (routes.ts lines
554-595): when the room has truthy white and black ids, settle (winner's
rating +3 via `updateUserRating`, loser re-written with his current rating
— which still bumps `gamesPlayed` — and on a draw both re-written
unchanged), record the finished game, then broadcast `game_over` to every
client except the sender. -/
def gameOverRoom (roomOpt : Option Room) (ws : Nat) (result : Option String)
    (winnerColor : Option String) (db : Db) : Db × List (Nat × SMsg) :=
  let db2 :=
    match roomOpt with
    | none => db
    | some room =>
      if truthyNat room.whiteId && truthyNat room.blackId then
        let wId := room.whiteId.getD 0
        let bId := room.blackId.getD 0
        let dbA :=
          if winnerColor == some "w" then
            let d1 :=
              match getUser db wId with
              | some u => updateUserRating db wId (u.rating + 3)
              | none => db
            updateUserRating d1 bId
              (((getUser d1 bId).map UserRec.rating).getD 0)
          else if winnerColor == some "b" then
            let d1 :=
              match getUser db bId with
              | some u => updateUserRating db bId (u.rating + 3)
              | none => db
            updateUserRating d1 wId
              (((getUser d1 wId).map UserRec.rating).getD 0)
          else
            let d1 := updateUserRating db wId
              (((getUser db wId).map UserRec.rating).getD 0)
            updateUserRating d1 bId
              (((getUser d1 bId).map UserRec.rating).getD 0)
        createGame dbA
          { whitePlayerId := room.whiteId
            blackPlayerId := room.blackId
            result := result
            pgn := room.fen.getD "" }
      else db
  let msgs :=
    match roomOpt with
    | none => []
    | some room =>
      (room.clients.filter (fun c => c != ws)).map
        (fun c => (c, SMsg.gameOver result))
  (db2, msgs)

/-- The per-room part of the `close` handler (routes.ts lines 660-670):
remove the connection from `clients`, free any seat it held, drop it from
the spectator set, and send fresh `stats` to the remaining clients.  The
`started` flag is not touched. -/
def closeRoom (room : Room) (ws : Nat) : Room × List (Nat × SMsg) :=
  if ws ∈ room.clients then
    let cl := room.clients.erase ws
    let room2 := { room with
      clients := cl
      white := if room.white = some ws then none else room.white
      black := if room.black = some ws then none else room.black
      spectators := room.spectators.erase ws }
    (room2, cl.map (fun c => (c, SMsg.stats cl.length)))
  else (room, [])

/-- One matchmaking ticket (`{ ws, userId }` in `matchQueue`). -/
structure Ticket where
  ws : Nat
  userId : Nat
deriving DecidableEq

/-- Mutating the found ticket's `ws` field in place (`existing.ws = ws`):
replace the first ticket with the given userId. -/
def replaceWs : List Ticket → Nat → Nat → List Ticket
  | [], _, _ => []
  | t :: ts, uid, w =>
    if t.userId == uid then { t with ws := w } :: ts
    else t :: replaceWs ts uid w

/-- The `find_match` handler (routes.ts lines 419-446).  `isOpen` models
`readyState === WebSocket.OPEN`.  A requester already in the queue only
has its connection replaced.  Otherwise the first ticket of a different
user is spliced out; if its connection is open both sides get
`match_found` with the fresh room id, and if it is closed the requester is
enqueued at the tail instead. -/
def findMatch (isOpen : Nat → Bool) (queue : List Ticket) (ws : Nat)
    (userId : Nat) (freshId : String) : List Ticket × List (Nat × SMsg) :=
  if queue.any (fun t => t.userId == userId) then
    (replaceWs queue userId ws, [])
  else if queue.length > 0 then
    match queue.findIdx? (fun t => t.userId != userId) with
    | some i =>
      match queue[i]? with
      | some opp =>
        let rest := queue.eraseIdx i
        if isOpen opp.ws then
          (rest, [(ws, SMsg.matchFound freshId),
                  (opp.ws, SMsg.matchFound freshId)])
        else (rest ++ [⟨ws, userId⟩], [])
      | none => (queue ++ [⟨ws, userId⟩], [])
    | none => (queue ++ [⟨ws, userId⟩], [])
  else (queue ++ [⟨ws, userId⟩], [])

/-- Room events a single connection can cause on one room. -/
inductive Ev where
  | join (ws : Nat) (userId : Option Nat) (username : Option String)
  | close (ws : Nat)
deriving DecidableEq

/-- The state part of processing one event. -/
def stepRoom (r : Room) : Ev → Room
  | Ev.join ws uid un => (joinRoom r ws uid un).1
  | Ev.close ws => (closeRoom r ws).1

/-- State of a room created on first use and then fed a trace of events. -/
def runRoom (t : List Ev) : Room :=
  t.foldl stepRoom mkRoom

/-- Connections of the join events of a trace, in order. -/
def joinConns : List Ev → List Nat
  | [] => []
  | Ev.join ws _ _ :: t => ws :: joinConns t
  | Ev.close _ :: t => joinConns t

/-- The seat/spectator part of the room invariant: no spectator holds a
seat, and when both seats are occupied they are held by distinct
connections. -/
def SeatSpectatorOK (r : Room) : Prop :=
  (∀ c ∈ r.spectators, r.white ≠ some c ∧ r.black ≠ some c) ∧
  (∀ cw cb : Nat, r.white = some cw → r.black = some cb → cw ≠ cb)

/-- The full room well-formedness invariant maintained by the express
server's join/close handlers: client and spectator sets are duplicate
free, spectators and seat-holders are members of the room, and the
seat/spectator conditions hold. -/
def RoomWF (r : Room) : Prop :=
  r.clients.Nodup ∧ r.spectators.Nodup ∧
  (∀ c ∈ r.spectators, c ∈ r.clients) ∧
  (∀ c : Nat, r.white = some c → c ∈ r.clients) ∧
  (∀ c : Nat, r.black = some c → c ∈ r.clients) ∧
  SeatSpectatorOK r

end Srv

namespace Wkr

open Store

/-- A seat occupant's recorded identity (`whiteMeta` / `blackMeta`). -/
structure Meta where
  id : Option Nat
  username : Option String
deriving DecidableEq

/-- Per-socket data in the Room durable object (`RoomConn`). -/
structure WConn where
  userId : Option Nat
  username : Option String
  role : Role
deriving DecidableEq

/-- The snapshot written by `Room.persist` and read back at construction. -/
structure Snapshot where
  fen : Option String
  started : Bool
  whiteMeta : Meta
  blackMeta : Meta
deriving DecidableEq

/-- The worker's Room durable object state (src/worker/src/index.ts,
class `Room`). -/
structure WRoom where
  fen : Option String
  started : Bool
  white : Option Nat
  black : Option Nat
  whiteMeta : Meta
  blackMeta : Meta
  sockets : List (Nat × WConn)
deriving DecidableEq

/-- JS `Map.get` on the sockets map. -/
def lookupSock (l : List (Nat × WConn)) (k : Nat) : Option WConn :=
  (l.find? (fun p => p.1 == k)).map Prod.snd

/-- JS `Map.set`: update in place when present, else append. -/
def setSock (l : List (Nat × WConn)) (k : Nat) (v : WConn) :
    List (Nat × WConn) :=
  if l.any (fun p => p.1 == k) then
    l.map (fun p => if p.1 == k then (k, v) else p)
  else l ++ [(k, v)]

/-- JS `Map.delete`. -/
def removeSock (l : List (Nat × WConn)) (k : Nat) : List (Nat × WConn) :=
  l.filter (fun p => p.1 != k)

/-- Field defaults of a freshly constructed Room durable object. -/
def initRoom : WRoom :=
  { fen := none
    started := false
    white := none
    black := none
    whiteMeta := { id := none, username := none }
    blackMeta := { id := none, username := none }
    sockets := [] }

/-- The constructor's one-time `blockConcurrencyWhile` read of the stored
snapshot (worker lines 527-539): rehydrate fen, started flag and both
seat identities; seats and sockets start empty. -/
def rehydrate (stored : Option Snapshot) : WRoom :=
  match stored with
  | none => initRoom
  | some s =>
    { initRoom with
        fen := s.fen
        started := s.started
        whiteMeta := s.whiteMeta
        blackMeta := s.blackMeta }

/-- The snapshot `Room.persist` writes for a given state. -/
def snapshotOf (r : WRoom) : Snapshot :=
  { fen := r.fen
    started := r.started
    whiteMeta := r.whiteMeta
    blackMeta := r.blackMeta }

/-- `Room.assignRole` (worker lines 567-580). -/
def assignRole (r : WRoom) (ws : Nat) (userId : Option Nat)
    (username : Option String) : WRoom × Role :=
  if r.white.isNone then
    ({ r with
        white := some ws
        whiteMeta := { id := userId, username := username }
        sockets := setSock r.sockets ws
          { userId := userId, username := username, role := Role.w } },
      Role.w)
  else if r.black.isNone then
    ({ r with
        black := some ws
        blackMeta := { id := userId, username := username }
        sockets := setSock r.sockets ws
          { userId := userId, username := username, role := Role.b } },
      Role.b)
  else
    ({ r with
        sockets := setSock r.sockets ws
          { userId := userId, username := username, role := Role.s } },
      Role.s)

/-- `Room.maybeStart` (worker lines 582-593): when not yet started and
both seats are occupied, set the started flag, send `opponent_info` to
both seats when all four identity fields are truthy, send the
`start_game` pair, and persist. -/
def maybeStart (r : WRoom) : WRoom × List (Nat × SMsg) × List Snapshot :=
  if r.started then (r, [], [])
  else
    match r.white, r.black with
    | some cw, some cb =>
      let r2 := { r with started := true }
      let infoMsgs :=
        if truthyNat r.whiteMeta.id && truthyStr r.whiteMeta.username &&
            truthyNat r.blackMeta.id && truthyStr r.blackMeta.username then
          [(cw, SMsg.opponentInfo (r.blackMeta.id.getD 0)
              (r.blackMeta.username.getD "")),
           (cb, SMsg.opponentInfo (r.whiteMeta.id.getD 0)
              (r.whiteMeta.username.getD ""))]
        else []
      (r2, infoMsgs ++ [(cw, SMsg.startGame Role.w),
        (cb, SMsg.startGame Role.b)], [snapshotOf r2])
    | _, _ => (r, [], [])

/-- The connection path of `Room.fetch` (worker lines 607-617): assign a
role, broadcast `stats`, send `role` (with the waiting flag), the current
`state` when a fen is present, `player_info` for both seats to a
spectator, then `maybeStart`.  Returns the new state, the messages in
source order, and the persisted snapshots. -/
def wJoin (r : WRoom) (ws : Nat) (auth : Option (Nat × String)) :
    WRoom × List (Nat × SMsg) × List Snapshot :=
  let userId := auth.map Prod.fst
  let username := auth.map Prod.snd
  let r1 := (assignRole r ws userId username).1
  let statsMsgs := r1.sockets.map
    (fun p => (p.1, SMsg.stats r1.sockets.length))
  let role := ((lookupSock r1.sockets ws).map WConn.role).getD Role.s
  let waiting := (role != Role.s) && !(r1.white.isSome && r1.black.isSome)
  let roleMsg := [(ws, SMsg.role role waiting)]
  let stateMsg :=
    if truthyStr r1.fen then [(ws, SMsg.state (r1.fen.getD ""))] else []
  let specMsgs :=
    if role == Role.s then
      (if truthyNat r1.whiteMeta.id && truthyStr r1.whiteMeta.username then
        [(ws, SMsg.playerInfo Role.w (r1.whiteMeta.id.getD 0)
          (r1.whiteMeta.username.getD ""))]
       else []) ++
      (if truthyNat r1.blackMeta.id && truthyStr r1.blackMeta.username then
        [(ws, SMsg.playerInfo Role.b (r1.blackMeta.id.getD 0)
          (r1.blackMeta.username.getD ""))]
       else [])
    else []
  let ms := maybeStart r1
  (ms.1, statsMsgs ++ roleMsg ++ stateMsg ++ specMsgs ++ ms.2.1, ms.2.2)

/-- The worker's `move` message handler (worker lines 624-634): when
`from`, `to` and `fen` are all strings, store the client-supplied fen,
persist, and broadcast the move — with no `except` argument, so to every
socket in the room including the sender.  No validation is performed. -/
def wMove (r : WRoom) (_ws : Nat) (src dst fen : Option String)
    (promotion : Option String) :
    WRoom × List (Nat × SMsg) × List Snapshot :=
  match src, dst, fen with
  | some s1, some s2, some f =>
    let r2 := { r with fen := some f }
    (r2, r2.sockets.map
        (fun p => (p.1, SMsg.wmove s1 s2 (promoOr promotion) f)),
      [snapshotOf r2])
  | _, _, _ => (r, [], [])

/-- The worker's `cleanup` (worker lines 675-684): drop the socket, free
any seat it held, broadcast fresh `stats`, clear the started flag when the
leaving socket's recorded role was a seat, and persist. -/
def wCleanup (r : WRoom) (ws : Nat) :
    WRoom × List (Nat × SMsg) × List Snapshot :=
  let meta := lookupSock r.sockets ws
  let socks := removeSock r.sockets ws
  let r1 := { r with
    sockets := socks
    white := if r.white == some ws then none else r.white
    black := if r.black == some ws then none else r.black }
  let statsMsgs := r1.sockets.map
    (fun p => (p.1, SMsg.stats r1.sockets.length))
  let st :=
    if meta.map WConn.role == some Role.w ||
        meta.map WConn.role == some Role.b then false
    else r1.started
  let r2 := { r1 with started := st }
  (r2, statsMsgs, [snapshotOf r2])

/-- Which win/loss/draw counter `Room.handleGameOver` bumps for a user. -/
inductive CntKind where
  | wins
  | losses
  | draws
deriving DecidableEq

/-- The row update of the worker's `inc` helper: add the rating delta,
bump `gamesPlayed`, and bump the selected counter. -/
def bumpUser (k : CntKind) (delta : Nat) (u : UserRec) : UserRec :=
  { u with
      rating := u.rating + delta
      gamesPlayed := u.gamesPlayed + 1
      wins := u.wins + (if k == CntKind.wins then 1 else 0)
      losses := u.losses + (if k == CntKind.losses then 1 else 0)
      draws := u.draws + (if k == CntKind.draws then 1 else 0) }

/-- The worker's `inc(userId, field, ratingDelta)` (lines 701-714): no-op
when the user row is missing, else the read-modify-write update. -/
def incUser (db : Db) (i : Nat) (k : CntKind) (delta : Nat) : Db :=
  match getUser db i with
  | none => db
  | some _ =>
    { db with users := db.users.map (fun u => if u.id == i then bumpUser k delta u else u) }

/-- `Room.handleGameOver` (worker lines 690-726): when both seat ids are
truthy, insert the finished-game row, then settle: winner gets rating +3
and a win, loser rating +0 and a loss, and on a draw both get rating +0
and a draw; every update also bumps `gamesPlayed`. -/
def wGameOver (r : WRoom) (db : Db) (result : String)
    (winnerColor : Option String) : Db :=
  if truthyNat r.whiteMeta.id && truthyNat r.blackMeta.id then
    let wId := r.whiteMeta.id.getD 0
    let bId := r.blackMeta.id.getD 0
    let db1 := createGame db
      { whitePlayerId := r.whiteMeta.id
        blackPlayerId := r.blackMeta.id
        result := some result
        pgn := r.fen.getD "" }
    if winnerColor == some "w" then
      incUser (incUser db1 wId CntKind.wins 3) bId CntKind.losses 0
    else if winnerColor == some "b" then
      incUser (incUser db1 bId CntKind.wins 3) wId CntKind.losses 0
    else
      incUser (incUser db1 wId CntKind.draws 0) bId CntKind.draws 0
  else db

end Wkr

/-! ### Helper lemmas -/

theorem mem_addSet (l : List Nat) (x y : Nat) :
    y ∈ addSet l x ↔ y = x ∨ y ∈ l := by
  unfold addSet
  split
  · rename_i hx
    constructor
    · exact fun h => Or.inr h
    · rintro (rfl | h)
      · exact hx
      · exact h
  · simp [or_comm]

theorem addSet_mem_self (l : List Nat) (x : Nat) : x ∈ addSet l x :=
  (mem_addSet l x x).mpr (Or.inl rfl)

theorem subset_addSet (l : List Nat) (x : Nat) : l ⊆ addSet l x :=
  fun _ h => (mem_addSet l x _).mpr (Or.inr h)

theorem addSet_nodup (l : List Nat) (x : Nat) (h : l.Nodup) :
    (addSet l x).Nodup := by
  unfold addSet
  split
  · exact h
  · rename_i hx
    simp [List.nodup_append, h, hx]

theorem lookupSock_setSock_self (l : List (Nat × Wkr.WConn)) (k : Nat)
    (v : Wkr.WConn) : Wkr.lookupSock (Wkr.setSock l k v) k = some v := by
  unfold Wkr.setSock
  split
  · rename_i hany
    induction l with
    | nil => simp at hany
    | cons p t ih =>
      by_cases hp : p.1 = k
      · simp [Wkr.lookupSock, List.find?, hp]
      · have hp' : (p.1 == k) = false := by simp [hp]
        simp only [List.any_cons, hp', Bool.false_or] at hany
        simpa [Wkr.lookupSock, List.find?, hp'] using ih hany
  · rename_i hany
    induction l with
    | nil => simp [Wkr.lookupSock, List.find?]
    | cons p t ih =>
      simp only [List.any_cons, Bool.or_eq_true, not_or] at hany
      have hp : (p.1 == k) = false := by
        simpa using hany.1
      simpa [Wkr.lookupSock, List.find?, hp] using ih hany.2

/-! ### C9 -/

/-- C9: seat assignment on `join`.  In both the express server
(routes.ts lines 459-473) and the worker (`Room.assignRole`): a joiner
entering a room with no seat occupant is assigned the white seat; with
only the white seat occupied, the black seat; with both seats occupied it
becomes a spectator (added to the spectator set resp. recorded with role
`s`). -/
theorem c9_join_role_assignment (room : Srv.Room) (wr : Wkr.WRoom)
    (ws : Nat) (uid : Option Nat) (un : Option String) :
    (room.white = none → room.black = none →
      (Srv.assignSeat room ws uid un).2 = Role.w ∧
      (Srv.assignSeat room ws uid un).1.white = some ws) ∧
    (room.white.isSome → room.black = none →
      (Srv.assignSeat room ws uid un).2 = Role.b ∧
      (Srv.assignSeat room ws uid un).1.black = some ws) ∧
    (room.white.isSome → room.black.isSome →
      (Srv.assignSeat room ws uid un).2 = Role.s ∧
      ws ∈ (Srv.assignSeat room ws uid un).1.spectators) ∧
    (wr.white = none → wr.black = none →
      (Wkr.assignRole wr ws uid un).2 = Role.w ∧
      (Wkr.assignRole wr ws uid un).1.white = some ws) ∧
    (wr.white.isSome → wr.black = none →
      (Wkr.assignRole wr ws uid un).2 = Role.b ∧
      (Wkr.assignRole wr ws uid un).1.black = some ws) ∧
    (wr.white.isSome → wr.black.isSome →
      (Wkr.assignRole wr ws uid un).2 = Role.s ∧
      Wkr.lookupSock (Wkr.assignRole wr ws uid un).1.sockets ws =
        some { userId := uid, username := un, role := Role.s }) := by
  refine ⟨?_, ?_, ?_, ?_, ?_, ?_⟩
  · intro hw _
    simp [Srv.assignSeat, hw]
  · intro hw hb
    rw [Option.isSome_iff_exists] at hw
    obtain ⟨w, hw⟩ := hw
    simp [Srv.assignSeat, hw, hb]
  · intro hw hb
    rw [Option.isSome_iff_exists] at hw
    rw [Option.isSome_iff_exists] at hb
    obtain ⟨w, hw⟩ := hw
    obtain ⟨b, hb⟩ := hb
    simp [Srv.assignSeat, hw, hb, addSet_mem_self]
  · intro hw _
    simp [Wkr.assignRole, hw]
  · intro hw hb
    rw [Option.isSome_iff_exists] at hw
    obtain ⟨w, hw⟩ := hw
    simp [Wkr.assignRole, hw, hb]
  · intro hw hb
    rw [Option.isSome_iff_exists] at hw
    rw [Option.isSome_iff_exists] at hb
    obtain ⟨w, hw⟩ := hw
    obtain ⟨b, hb⟩ := hb
    simp [Wkr.assignRole, hw, hb, lookupSock_setSock_self]

/-- Witness for C9 at concrete rooms: an empty room seats white, a room
with only white seats black, a full room makes the joiner a spectator. -/
theorem c9_witness :
    (Srv.assignSeat Srv.mkRoom 7 none none).2 = Role.w ∧
    (Wkr.assignRole { Wkr.initRoom with white := some 1 } 7 none none).2 =
      Role.b ∧
    (Srv.assignSeat
      { Srv.mkRoom with white := some 1, black := some 2 } 7 none none).2 =
      Role.s := by
  refine ⟨?_, ?_, ?_⟩
  · exact (c9_join_role_assignment Srv.mkRoom Wkr.initRoom 7 none
      none).1 rfl rfl |>.1
  · exact ((c9_join_role_assignment Srv.mkRoom
      { Wkr.initRoom with white := some 1 } 7 none none).2.2.2.2.1
      (by decide) rfl).1
  · exact ((c9_join_role_assignment
      { Srv.mkRoom with white := some 1, black := some 2 } Wkr.initRoom 7
      none none).2.2.1 (by decide) (by decide)).1

/-! ### C10 -/

/-- C10: error atomicity of the express server's move handler (routes.ts
lines 523-552).  When the embedded rules engine rejects the move (chess.js
returns no result or throws, modelled as `engine ... = none`), the stored
position snapshot `fen` is unchanged, the effective game position is
unchanged (the handler at most materialises the lazily created chess.js
instance for the same position), every other room field is unchanged, and
no message is sent to any connection. -/
theorem c10_move_rejection_atomic
    (engine : String → String → String → String → Option String)
    (room : Srv.Room) (ws : Nat) (sid : Option Nat) (m : MoveArg)
    (p : Option String) (hs : m.src ≠ "") (hd : m.dst ≠ "")
    (hrej : engine (Srv.effGame room) m.src m.dst (promoOr p) = none) :
    Srv.moveRoom engine room ws sid (some m) p =
      ({ room with game := some (Srv.effGame room) }, []) ∧
    ({ room with game := some (Srv.effGame room) } : Srv.Room).fen =
      room.fen ∧
    Srv.effGame { room with game := some (Srv.effGame room) } =
      Srv.effGame room := by
  refine ⟨?_, rfl, rfl⟩
  simp [Srv.moveRoom, hs, hd, hrej]

/-- Witness for C10: a rejected move in a fresh two-player room changes
nothing and sends nothing. -/
theorem c10_witness :
    Srv.moveRoom (fun _ _ _ _ => none)
      (Srv.runRoom [Srv.Ev.join 1 none none, Srv.Ev.join 2 none none]) 1
      none (some { src := "e2", dst := "e2" }) none =
      ({ Srv.runRoom [Srv.Ev.join 1 none none, Srv.Ev.join 2 none none]
          with game := some (Srv.effGame (Srv.runRoom
            [Srv.Ev.join 1 none none, Srv.Ev.join 2 none none])) }, []) :=
  (c10_move_rejection_atomic (fun _ _ _ _ => none)
    (Srv.runRoom [Srv.Ev.join 1 none none, Srv.Ev.join 2 none none]) 1
    none { src := "e2", dst := "e2" } none (by decide) (by decide)
    rfl).1

/-! ### C1 -/

/-- C1 counterexample: the claim says every `move` event for an existing
room updates the snapshot to the client-supplied resulting position and
fans it out, without validation.  The express server's move handler
(routes.ts lines 523-552) validates through chess.js and does not even
read a client-supplied resulting position.  Concretely, in a fresh
two-player room, a move the engine rejects (here `e2 -> e2`, a null move
chess.js rejects in every position, abstracted as a rejecting engine)
leaves the room exactly as it was and fans out nothing. -/
theorem c1_counterexample :
    Srv.moveRoom (fun _ _ _ _ => none)
      (Srv.runRoom [Srv.Ev.join 1 none none, Srv.Ev.join 2 none none]) 1
      none (some { src := "e2", dst := "e2" }) none =
      (Srv.runRoom [Srv.Ev.join 1 none none, Srv.Ev.join 2 none none],
        []) := by
  decide

/-- C1 amended: in the worker coordinator, every well-formed `move` event
(string `from`, `to` and resulting fen) updates the stored snapshot to the
client-supplied fen and broadcasts it unchanged, with no validation.  In
the express server coordinator the move is validated by the embedded
chess.js engine: an accepted move stores and fans out the engine-computed
position (not a client-supplied one), and a rejected move changes nothing
and sends nothing. -/
theorem c1_amended :
    (∀ (r : Wkr.WRoom) (ws : Nat) (s d f : String) (p : Option String),
      Wkr.wMove r ws (some s) (some d) (some f) p =
        ({ r with fen := some f },
         r.sockets.map (fun q => (q.1, SMsg.wmove s d (promoOr p) f)),
         [Wkr.snapshotOf { r with fen := some f }])) ∧
    (∀ (engine : String → String → String → String → Option String)
        (r : Srv.Room) (ws : Nat) (sid : Option Nat) (m : MoveArg)
        (p : Option String) (f2 : String), m.src ≠ "" → m.dst ≠ "" →
      engine (Srv.effGame r) m.src m.dst (promoOr p) = some f2 →
      Srv.moveRoom engine r ws sid (some m) p =
        ({ r with game := some f2, fen := some f2 },
         (r.clients.filter (fun c => c != ws)).map
           (fun c => (c, SMsg.move m.src m.dst (promoOr p) f2 sid)))) ∧
    (∀ (engine : String → String → String → String → Option String)
        (r : Srv.Room) (ws : Nat) (sid : Option Nat) (m : MoveArg)
        (p : Option String), m.src ≠ "" → m.dst ≠ "" →
      engine (Srv.effGame r) m.src m.dst (promoOr p) = none →
      Srv.moveRoom engine r ws sid (some m) p =
        ({ r with game := some (Srv.effGame r) }, [])) := by
  refine ⟨?_, ?_, ?_⟩
  · intro r ws s d f p
    rfl
  · intro engine r ws sid m p f2 hs hd hacc
    simp [Srv.moveRoom, hs, hd, hacc]
  · intro engine r ws sid m p hs hd hrej
    simp [Srv.moveRoom, hs, hd, hrej]

/-- Witness for C1 amended: an accepting engine stores and fans out the
engine-computed position in a concrete two-player room. -/
theorem c1_witness :
    Srv.moveRoom (fun _ _ _ _ => some "ENGINE-FEN")
      (Srv.runRoom [Srv.Ev.join 1 none none, Srv.Ev.join 2 none none]) 1
      none (some { src := "e2", dst := "e4" }) none =
      ({ Srv.runRoom [Srv.Ev.join 1 none none, Srv.Ev.join 2 none none]
          with game := some "ENGINE-FEN", fen := some "ENGINE-FEN" },
        [(2, SMsg.move "e2" "e4" "q" "ENGINE-FEN" none)]) := by
  have h := c1_amended.2.1 (fun _ _ _ _ => some "ENGINE-FEN")
    (Srv.runRoom [Srv.Ev.join 1 none none, Srv.Ev.join 2 none none]) 1
    none { src := "e2", dst := "e4" } none "ENGINE-FEN" (by decide)
    (by decide) rfl
  rw [h]
  decide

/-! ### C8 -/

/-- C8 counterexample: the claim says an accepted `move` from connection C
is never sent back to C.  The worker's move handler (worker lines 624-634)
calls `broadcast` without an `except` argument, so the sender receives its
own move back.  Concretely: connections 1 and 2 join a worker room and
connection 1 moves; the recipient list is `[1, 2]`, which includes the
sender. -/
theorem c8_counterexample :
    ((Wkr.wMove
      ((Wkr.wJoin ((Wkr.wJoin Wkr.initRoom 1 (some (5, "a"))).1) 2
        (some (6, "c"))).1) 1 (some "e2") (some "e4") (some "F2")
      none).2.1).map Prod.fst = [1, 2] := by
  decide

/-- C8 amended: in the express server (routes.ts lines 536-548) an
accepted move is delivered to every other connection currently in the room
and never back to the sender; in the worker the move broadcast goes to
every socket in the room including the sender. -/
theorem c8_amended :
    (∀ (engine : String → String → String → String → Option String)
        (r : Srv.Room) (ws : Nat) (sid : Option Nat) (m : MoveArg)
        (p : Option String) (f2 : String), m.src ≠ "" → m.dst ≠ "" →
      engine (Srv.effGame r) m.src m.dst (promoOr p) = some f2 →
      ((Srv.moveRoom engine r ws sid (some m) p).2 =
        (r.clients.filter (fun c => c != ws)).map
          (fun c => (c, SMsg.move m.src m.dst (promoOr p) f2 sid)) ∧
       ws ∉ ((Srv.moveRoom engine r ws sid (some m) p).2).map Prod.fst ∧
       ∀ c ∈ r.clients, c ≠ ws →
         (c, SMsg.move m.src m.dst (promoOr p) f2 sid) ∈
           (Srv.moveRoom engine r ws sid (some m) p).2)) ∧
    (∀ (r : Wkr.WRoom) (ws : Nat) (s d f : String) (p : Option String),
      (Wkr.wMove r ws (some s) (some d) (some f) p).2.1 =
        r.sockets.map (fun q => (q.1, SMsg.wmove s d (promoOr p) f))) := by
  constructor
  · intro engine r ws sid m p f2 hs hd hacc
    have heq : (Srv.moveRoom engine r ws sid (some m) p).2 =
        (r.clients.filter (fun c => c != ws)).map
          (fun c => (c, SMsg.move m.src m.dst (promoOr p) f2 sid)) := by
      simp [Srv.moveRoom, hs, hd, hacc]
    refine ⟨heq, ?_, ?_⟩
    · rw [heq]
      intro hmem
      rw [List.map_map] at hmem
      obtain ⟨c, hcf, hc⟩ := List.mem_map.mp hmem
      have hcne := (List.mem_filter.mp hcf).2
      have hceq : c = ws := hc
      subst hceq
      simp at hcne
    · intro c hc hcne
      rw [heq]
      refine List.mem_map.mpr ⟨c, List.mem_filter.mpr ⟨hc, ?_⟩, rfl⟩
      simpa using hcne
  · intro r ws s d f p
    rfl

/-- Witness for C8 amended: in a concrete express-server room with
clients 1 and 2, a move by 1 is delivered to 2 only. -/
theorem c8_witness :
    (Srv.moveRoom (fun _ _ _ _ => some "F9")
      (Srv.runRoom [Srv.Ev.join 1 none none, Srv.Ev.join 2 none none]) 1
      none (some { src := "a2", dst := "a3" }) none).2 =
      [(2, SMsg.move "a2" "a3" "q" "F9" none)] := by
  have h := (c8_amended.1 (fun _ _ _ _ => some "F9")
    (Srv.runRoom [Srv.Ev.join 1 none none, Srv.Ev.join 2 none none]) 1
    none { src := "a2", dst := "a3" } none "F9" (by decide) (by decide)
    rfl).1
  rw [h]
  decide

/-! ### C3 -/

/-- C3 counterexample: the claim says a seat-holder's close clears the
seat AND the `started` flag.  In the express server's close handler
(routes.ts lines 660-670) the `started` flag is never touched: after
connections 1 and 2 join (which starts the game) and 1 closes, the seat is
cleared but `started` is still `true`, so a later join refilling both
seats does not re-trigger `start_game`. -/
theorem c3_counterexample :
    (Srv.runRoom [Srv.Ev.join 1 none none,
      Srv.Ev.join 2 none none]).started = true ∧
    (Srv.closeRoom (Srv.runRoom [Srv.Ev.join 1 none none,
      Srv.Ev.join 2 none none]) 1).1.white = none ∧
    (Srv.closeRoom (Srv.runRoom [Srv.Ev.join 1 none none,
      Srv.Ev.join 2 none none]) 1).1.started = true := by
  decide

/-- C3 amended: in the worker coordinator the claim holds as stated — a
seat-holder's disconnect clears the seat, clears the `started` flag, and
leaves the position snapshot and both seat identities in place.  In the
express server coordinator the seat is cleared and the room, its position
snapshot and the seat identities are kept, but the `started` flag is not
cleared, so a later join refilling both seats does not re-trigger
`start_game` there. -/
theorem c3_amended :
    (∀ (r : Wkr.WRoom) (ws : Nat) (m : Wkr.WConn),
      Wkr.lookupSock r.sockets ws = some m →
      m.role = Role.w ∨ m.role = Role.b →
      ((Wkr.wCleanup r ws).1.started = false ∧
       (Wkr.wCleanup r ws).1.white =
         (if r.white = some ws then none else r.white) ∧
       (Wkr.wCleanup r ws).1.black =
         (if r.black = some ws then none else r.black) ∧
       (Wkr.wCleanup r ws).1.fen = r.fen ∧
       (Wkr.wCleanup r ws).1.whiteMeta = r.whiteMeta ∧
       (Wkr.wCleanup r ws).1.blackMeta = r.blackMeta)) ∧
    (∀ (r : Srv.Room) (ws : Nat), ws ∈ r.clients →
      ((Srv.closeRoom r ws).1.white =
         (if r.white = some ws then none else r.white) ∧
       (Srv.closeRoom r ws).1.black =
         (if r.black = some ws then none else r.black) ∧
       (Srv.closeRoom r ws).1.fen = r.fen ∧
       (Srv.closeRoom r ws).1.whiteId = r.whiteId ∧
       (Srv.closeRoom r ws).1.blackId = r.blackId ∧
       (Srv.closeRoom r ws).1.started = r.started)) := by
  constructor
  · intro r ws m hm hrole
    have hcond : ((Wkr.lookupSock r.sockets ws).map Wkr.WConn.role ==
        some Role.w ||
        (Wkr.lookupSock r.sockets ws).map Wkr.WConn.role ==
        some Role.b) = true := by
      rcases hrole with h | h <;> simp [hm, h]
    refine ⟨?_, ?_, ?_, ?_, ?_, ?_⟩ <;>
      simp [Wkr.wCleanup, hcond, beq_iff_eq]
  · intro r ws hws
    refine ⟨?_, ?_, ?_, ?_, ?_, ?_⟩ <;>
      simp [Srv.closeRoom, hws, beq_iff_eq]

/-- Witness for C3 amended: connection 1 holds white in a concrete worker
room; its cleanup clears the seat and the started flag and keeps the
snapshot. -/
theorem c3_witness :
    (Wkr.wCleanup ((Wkr.wJoin ((Wkr.wJoin Wkr.initRoom 1
        (some (5, "a"))).1) 2 (some (6, "c"))).1) 1).1.started = false ∧
    (Wkr.wCleanup ((Wkr.wJoin ((Wkr.wJoin Wkr.initRoom 1
        (some (5, "a"))).1) 2 (some (6, "c"))).1) 1).1.white = none ∧
    (Wkr.wCleanup ((Wkr.wJoin ((Wkr.wJoin Wkr.initRoom 1
        (some (5, "a"))).1) 2 (some (6, "c"))).1) 1).1.fen =
      ((Wkr.wJoin ((Wkr.wJoin Wkr.initRoom 1 (some (5, "a"))).1) 2
        (some (6, "c"))).1).fen := by
  have h := c3_amended.1
    ((Wkr.wJoin ((Wkr.wJoin Wkr.initRoom 1 (some (5, "a"))).1) 2
      (some (6, "c"))).1) 1
    { userId := some 5, username := some "a", role := Role.w }
    (by decide) (Or.inl rfl)
  refine ⟨h.1, ?_, h.2.2.2.1⟩
  rw [h.2.1]
  decide

/-! ### C7 -/

/-- C7 counterexample: the claim says the room snapshot is written to
durable storage after every state-changing event, including a join/seat
change.  In the worker, a first join that assigns the white seat (a state
change to `whiteMeta`) persists nothing — `Room.persist` only runs from
`maybeStart`, the move handler and `cleanup`. -/
theorem c7_counterexample :
    (Wkr.wJoin Wkr.initRoom 1 (some (5, "a"))).2.2 = [] ∧
    (Wkr.wJoin Wkr.initRoom 1 (some (5, "a"))).1.whiteMeta =
      { id := some 5, username := some "a" } := by
  decide

/-- `assignRole` never changes the `started` flag. -/
theorem assignRole_started (r : Wkr.WRoom) (ws : Nat) (uid : Option Nat)
    (un : Option String) :
    ((Wkr.assignRole r ws uid un).1).started = r.started := by
  unfold Wkr.assignRole
  split
  · rfl
  · split <;> rfl

/-- The state and persist log of `wJoin` are those of `maybeStart` after
the role assignment. -/
theorem wJoin_pers (r : Wkr.WRoom) (ws : Nat) (au : Option (Nat × String)) :
    (Wkr.wJoin r ws au).2.2 =
      (Wkr.maybeStart ((Wkr.assignRole r ws (au.map Prod.fst)
        (au.map Prod.snd)).1)).2.2 ∧
    (Wkr.wJoin r ws au).1 =
      (Wkr.maybeStart ((Wkr.assignRole r ws (au.map Prod.fst)
        (au.map Prod.snd)).1)).1 :=
  ⟨rfl, rfl⟩

/-- `maybeStart` persists exactly when it flips the started flag. -/
theorem maybeStart_pers (r : Wkr.WRoom) :
    (Wkr.maybeStart r).2.2 =
      if !r.started && ((Wkr.maybeStart r).1).started then
        [Wkr.snapshotOf ((Wkr.maybeStart r).1)]
      else [] := by
  by_cases hs : r.started
  · simp [Wkr.maybeStart, hs]
  · cases hw : r.white <;> cases hb : r.black <;>
      simp [Wkr.maybeStart, hs, hw, hb]

/-- C7 amended: in the worker coordinator the room snapshot (fen, started
flag, seat identities) is persisted after every accepted move, after every
disconnect, and after a join exactly when it starts the game; a join that
merely assigns a seat or adds a spectator persists nothing.  The prior
snapshot is read once, at coordinator creation, to rehydrate fen, started
flag and seat identities.  (The express server coordinator keeps its room
state only in memory — its handlers contain no durable-storage call at
all.) -/
theorem c7_amended :
    (∀ (r : Wkr.WRoom) (ws : Nat) (s d f : String) (p : Option String),
      (Wkr.wMove r ws (some s) (some d) (some f) p).2.2 =
        [Wkr.snapshotOf { r with fen := some f }]) ∧
    (∀ (r : Wkr.WRoom) (ws : Nat),
      (Wkr.wCleanup r ws).2.2 = [Wkr.snapshotOf (Wkr.wCleanup r ws).1]) ∧
    (∀ (r : Wkr.WRoom) (ws : Nat) (au : Option (Nat × String)),
      (Wkr.wJoin r ws au).2.2 =
        if !r.started && ((Wkr.wJoin r ws au).1).started then
          [Wkr.snapshotOf ((Wkr.wJoin r ws au).1)]
        else []) ∧
    (∀ s : Wkr.Snapshot, Wkr.rehydrate (some s) =
      { Wkr.initRoom with
          fen := s.fen
          started := s.started
          whiteMeta := s.whiteMeta
          blackMeta := s.blackMeta }) ∧
    Wkr.rehydrate none = Wkr.initRoom := by
  refine ⟨fun r ws s d f p => rfl, fun r ws => rfl, ?_, fun s => rfl, rfl⟩
  intro r ws au
  rw [(wJoin_pers r ws au).1, (wJoin_pers r ws au).2,
    ← assignRole_started r ws (au.map Prod.fst) (au.map Prod.snd)]
  exact maybeStart_pers _

/-! ### C6 -/

/-- C6 counterexample: the claim says a ticket whose connection has closed
is skipped without preventing the requester from being paired with a later
viable ticket.  In the express server (routes.ts lines 429-445), when the
first different-user ticket's connection is closed, the dead ticket is
discarded and the requester is enqueued — nobody receives `match_found`,
even though a viable ticket (connection 3) is right behind: the result is
queue `[⟨3,30⟩, ⟨1,10⟩]` and no messages. -/
theorem c6_counterexample :
    Srv.findMatch (fun w => w != 2)
      [{ ws := 2, userId := 20 }, { ws := 3, userId := 30 }] 1 10 "R1" =
      ([{ ws := 3, userId := 30 }, { ws := 1, userId := 10 }], []) := by
  decide

/-- C6 amended: for a `find_match` request hitting a non-empty queue none
of whose tickets belong to the requester, the first ticket is popped; if
its connection is still open both parties receive `match_found` with the
same fresh room id, and if it has closed the dead ticket is discarded and
the requester is enqueued at the tail — it is not immediately paired with
a later viable ticket. -/
theorem c6_amended (isOpen : Nat → Bool) (opp : Srv.Ticket)
    (rest : List Srv.Ticket) (ws uid : Nat) (fresh : String)
    (h : ∀ t ∈ opp :: rest, t.userId ≠ uid) :
    Srv.findMatch isOpen (opp :: rest) ws uid fresh =
      if isOpen opp.ws then
        (rest, [(ws, SMsg.matchFound fresh),
          (opp.ws, SMsg.matchFound fresh)])
      else (rest ++ [{ ws := ws, userId := uid }], []) := by
  have hany : ((opp :: rest).any (fun t => t.userId == uid)) = false := by
    rw [List.any_eq_false]
    intro t ht
    simpa using h t ht
  have hopp : (opp.userId != uid) = true := by
    simpa using h opp (List.mem_cons_self opp rest)
  have hidx : ((opp :: rest).findIdx? (fun t => t.userId != uid)) =
      some 0 := by
    simp [List.findIdx?_cons, hopp]
  simp [Srv.findMatch, hany, hidx]

/-- Witness for C6 amended: a single viable ticket is popped and both
parties receive `match_found` with the fresh room id. -/
theorem c6_witness :
    Srv.findMatch (fun _ => true) [{ ws := 2, userId := 20 }] 1 10 "R" =
      ([], [(1, SMsg.matchFound "R"), (2, SMsg.matchFound "R")]) := by
  have h := c6_amended (fun _ => true) { ws := 2, userId := 20 } [] 1 10
    "R" (by decide)
  simpa using h

/-! ### C2 -/

/-- C2: the claim requires settlement to be idempotent under duplicate
`game_over` events.  Neither coordinator guards this: the express server's
`game_over` handler (routes.ts lines 554-595) runs settlement
unconditionally whenever the room has both seat ids.  Concretely, for a
room with white id 1 (rating 10) and black id 2 (rating 20, 5 games):
after one `game_over{winnerColor:'w'}` white's rating is 13, and after a
duplicate of the same event it is 16 with `gamesPlayed` 2, black has
`gamesPlayed` 7, and a second finished-game row has been inserted — the
second event settles again, contradicting the claim (a code bug: the spec
itself calls for an idempotency guard). -/
theorem c2_duplicate_settlement_double_increments :
    ((Store.getUser ((Srv.gameOverRoom
        (some { Srv.runRoom [Srv.Ev.join 1 none none, Srv.Ev.join 2 none none] with whiteId := some 1, blackId := some 2 })
        1 (some "1-0") (some "w")
        ((Srv.gameOverRoom
          (some { Srv.runRoom [Srv.Ev.join 1 none none, Srv.Ev.join 2 none none] with whiteId := some 1, blackId := some 2 })
          1 (some "1-0") (some "w")
          { users := [{ id := 1, rating := 10, gamesPlayed := 0, wins := 0, losses := 0, draws := 0 }, { id := 2, rating := 20, gamesPlayed := 5, wins := 0, losses := 0, draws := 0 }], games := [] }).1)).1)
      1).map (fun u => (u.rating, u.gamesPlayed)) = some (16, 2)) ∧
    ((Store.getUser ((Srv.gameOverRoom
        (some { Srv.runRoom [Srv.Ev.join 1 none none, Srv.Ev.join 2 none none] with whiteId := some 1, blackId := some 2 })
        1 (some "1-0") (some "w")
        ((Srv.gameOverRoom
          (some { Srv.runRoom [Srv.Ev.join 1 none none, Srv.Ev.join 2 none none] with whiteId := some 1, blackId := some 2 })
          1 (some "1-0") (some "w")
          { users := [{ id := 1, rating := 10, gamesPlayed := 0, wins := 0, losses := 0, draws := 0 }, { id := 2, rating := 20, gamesPlayed := 5, wins := 0, losses := 0, draws := 0 }], games := [] }).1)).1)
      2).map (fun u => (u.rating, u.gamesPlayed)) = some (20, 7)) ∧
    ((Srv.gameOverRoom
        (some { Srv.runRoom [Srv.Ev.join 1 none none, Srv.Ev.join 2 none none] with whiteId := some 1, blackId := some 2 })
        1 (some "1-0") (some "w")
        ((Srv.gameOverRoom
          (some { Srv.runRoom [Srv.Ev.join 1 none none, Srv.Ev.join 2 none none] with whiteId := some 1, blackId := some 2 })
          1 (some "1-0") (some "w")
          { users := [{ id := 1, rating := 10, gamesPlayed := 0, wins := 0, losses := 0, draws := 0 }, { id := 2, rating := 20, gamesPlayed := 5, wins := 0, losses := 0, draws := 0 }], games := [] }).1)).1).games.length = 2 := by
  decide

/-! ### C5: database lemmas -/

theorem find_map_ite (l : List Store.UserRec) (i j : Nat)
    (g : Store.UserRec → Store.UserRec) (hg : ∀ u, (g u).id = u.id) :
    (l.map (fun u => if u.id == i then g u else u)).find?
        (fun u => u.id == j) =
      if j = i then (l.find? (fun u => u.id == j)).map g
      else l.find? (fun u => u.id == j) := by
  rw [List.find?_map]
  have hpred : ((fun u => u.id == j) ∘
      (fun u : Store.UserRec => if u.id == i then g u else u)) =
      (fun u : Store.UserRec => u.id == j) := by
    funext u
    by_cases hui : u.id = i <;> simp [Function.comp, hui, hg]
  rw [hpred]
  cases hf : l.find? (fun u => u.id == j) with
  | none => by_cases hji : j = i <;> simp [hji]
  | some u =>
    have hq := List.find?_some hf
    have huj : u.id = j := by simpa using hq
    by_cases hji : j = i
    · have h1 : (u.id == i) = true := by simp [huj, hji]
      simp [hji, h1]
      intro hc
      exact absurd (by simpa using h1) hc
    · have h1 : (u.id == i) = false := by simp [huj, hji]
      simp [hji, h1]
      intro hc
      exact absurd hc (by simpa using h1)

theorem getUser_updateUserRating (db : Store.Db) (i v j : Nat) :
    Store.getUser (Store.updateUserRating db i v) j =
      if j = i then (Store.getUser db j).map
        (fun u => { u with rating := v, gamesPlayed := u.gamesPlayed + 1 })
      else Store.getUser db j := by
  unfold Store.updateUserRating
  cases hu : Store.getUser db i with
  | none =>
    by_cases hji : j = i
    · subst hji
      simp [hu]
    · simp [hji]
  | some u =>
    have h := find_map_ite db.users i j
      (fun u => { u with rating := v, gamesPlayed := u.gamesPlayed + 1 })
      (fun u => rfl)
    have hset : db.users.map (Store.setRating i v) =
        db.users.map (fun u => if u.id == i then
          { u with rating := v, gamesPlayed := u.gamesPlayed + 1 }
          else u) := rfl
    show (db.users.map (Store.setRating i v)).find?
      (fun u => u.id == j) = _
    rw [hset, h]
    rfl

theorem getUser_incUser (db : Store.Db) (i j : Nat) (k : Wkr.CntKind)
    (d : Nat) :
    Store.getUser (Wkr.incUser db i k d) j =
      if j = i then (Store.getUser db j).map (Wkr.bumpUser k d)
      else Store.getUser db j := by
  unfold Wkr.incUser
  cases hu : Store.getUser db i with
  | none =>
    by_cases hji : j = i
    · subst hji
      simp [hu]
    · simp [hji]
  | some u =>
    have h := find_map_ite db.users i j (Wkr.bumpUser k d) (fun u => rfl)
    show (db.users.map (fun u => if u.id == i then Wkr.bumpUser k d u
      else u)).find? (fun u => u.id == j) = _
    rw [h]
    rfl

theorem games_updateUserRating (db : Store.Db) (i v : Nat) :
    (Store.updateUserRating db i v).games = db.games := by
  unfold Store.updateUserRating
  cases Store.getUser db i <;> rfl

theorem games_incUser (db : Store.Db) (i : Nat) (k : Wkr.CntKind)
    (d : Nat) : (Wkr.incUser db i k d).games = db.games := by
  unfold Wkr.incUser
  cases Store.getUser db i <;> rfl

theorem getUser_createGame (db : Store.Db) (g : Store.GameRec) (j : Nat) :
    Store.getUser (Store.createGame db g) j = Store.getUser db j := rfl

theorem getUser_after_pair (db : Store.Db) (a b va vb : Nat)
    (ua ub : Store.UserRec) (hne : a ≠ b)
    (hua : Store.getUser db a = some ua)
    (hub : Store.getUser db b = some ub) :
    Store.getUser (Store.updateUserRating
        (Store.updateUserRating db a va) b vb) a =
      some { ua with rating := va, gamesPlayed := ua.gamesPlayed + 1 } ∧
    Store.getUser (Store.updateUserRating
        (Store.updateUserRating db a va) b vb) b =
      some { ub with rating := vb, gamesPlayed := ub.gamesPlayed + 1 } := by
  constructor
  · rw [getUser_updateUserRating, if_neg hne,
      getUser_updateUserRating, if_pos rfl, hua]
    rfl
  · rw [getUser_updateUserRating, if_pos rfl,
      getUser_updateUserRating, if_neg (Ne.symm hne), hub]
    rfl

theorem getUser_after_incPair (dq : Store.Db) (a b : Nat)
    (ka kb : Wkr.CntKind) (da dbb : Nat) (ua ub : Store.UserRec)
    (hne : a ≠ b) (hua : Store.getUser dq a = some ua)
    (hub : Store.getUser dq b = some ub) :
    Store.getUser (Wkr.incUser (Wkr.incUser dq a ka da) b kb dbb) a =
      some (Wkr.bumpUser ka da ua) ∧
    Store.getUser (Wkr.incUser (Wkr.incUser dq a ka da) b kb dbb) b =
      some (Wkr.bumpUser kb dbb ub) := by
  constructor
  · rw [getUser_incUser, if_neg hne, getUser_incUser, if_pos rfl, hua]
    rfl
  · rw [getUser_incUser, if_pos rfl, getUser_incUser,
      if_neg (Ne.symm hne), hub]
    rfl

theorem srv_gameOver_w (db : Store.Db) (r : Srv.Room) (ws : Nat)
    (res : Option String) (wId bId : Nat) (uw ub : Store.UserRec)
    (hw : r.whiteId = some wId) (hw0 : wId ≠ 0)
    (hb : r.blackId = some bId) (hb0 : bId ≠ 0) (hne : wId ≠ bId)
    (huw : Store.getUser db wId = some uw)
    (hub : Store.getUser db bId = some ub) :
    (Srv.gameOverRoom (some r) ws res (some "w") db).1 =
      Store.createGame (Store.updateUserRating
        (Store.updateUserRating db wId (uw.rating + 3)) bId ub.rating)
        { whitePlayerId := some wId, blackPlayerId := some bId,
          result := res, pgn := r.fen.getD "" } := by
  have htw : truthyNat (some wId) = true := by simp [truthyNat, hw0]
  have htb : truthyNat (some bId) = true := by simp [truthyNat, hb0]
  have hd1b : Store.getUser
      (Store.updateUserRating db wId (uw.rating + 3)) bId = some ub := by
    rw [getUser_updateUserRating, if_neg (Ne.symm hne)]
    exact hub
  simp [Srv.gameOverRoom, htw, htb, hw, hb, huw, hd1b]

theorem srv_gameOver_b (db : Store.Db) (r : Srv.Room) (ws : Nat)
    (res : Option String) (wId bId : Nat) (uw ub : Store.UserRec)
    (hw : r.whiteId = some wId) (hw0 : wId ≠ 0)
    (hb : r.blackId = some bId) (hb0 : bId ≠ 0) (hne : wId ≠ bId)
    (huw : Store.getUser db wId = some uw)
    (hub : Store.getUser db bId = some ub) :
    (Srv.gameOverRoom (some r) ws res (some "b") db).1 =
      Store.createGame (Store.updateUserRating
        (Store.updateUserRating db bId (ub.rating + 3)) wId uw.rating)
        { whitePlayerId := some wId, blackPlayerId := some bId,
          result := res, pgn := r.fen.getD "" } := by
  have htw : truthyNat (some wId) = true := by simp [truthyNat, hw0]
  have htb : truthyNat (some bId) = true := by simp [truthyNat, hb0]
  have hd1w : Store.getUser
      (Store.updateUserRating db bId (ub.rating + 3)) wId = some uw := by
    rw [getUser_updateUserRating, if_neg hne]
    exact huw
  simp [Srv.gameOverRoom, htw, htb, hw, hb, hub, hd1w]

theorem srv_gameOver_draw (db : Store.Db) (r : Srv.Room) (ws : Nat)
    (res : Option String) (wId bId : Nat) (uw ub : Store.UserRec)
    (hw : r.whiteId = some wId) (hw0 : wId ≠ 0)
    (hb : r.blackId = some bId) (hb0 : bId ≠ 0) (hne : wId ≠ bId)
    (huw : Store.getUser db wId = some uw)
    (hub : Store.getUser db bId = some ub) :
    (Srv.gameOverRoom (some r) ws res none db).1 =
      Store.createGame (Store.updateUserRating
        (Store.updateUserRating db wId uw.rating) bId ub.rating)
        { whitePlayerId := some wId, blackPlayerId := some bId,
          result := res, pgn := r.fen.getD "" } := by
  have htw : truthyNat (some wId) = true := by simp [truthyNat, hw0]
  have htb : truthyNat (some bId) = true := by simp [truthyNat, hb0]
  have hd1b : Store.getUser
      (Store.updateUserRating db wId uw.rating) bId = some ub := by
    rw [getUser_updateUserRating, if_neg (Ne.symm hne)]
    exact hub
  simp [Srv.gameOverRoom, htw, htb, hw, hb, huw, hd1b]

theorem wkr_gameOver_w (db : Store.Db) (wr : Wkr.WRoom) (res : String)
    (wId bId : Nat)
    (hww : wr.whiteMeta.id = some wId) (hw0 : wId ≠ 0)
    (hwb : wr.blackMeta.id = some bId) (hb0 : bId ≠ 0) :
    Wkr.wGameOver wr db res (some "w") =
      Wkr.incUser (Wkr.incUser (Store.createGame db
        { whitePlayerId := some wId, blackPlayerId := some bId,
          result := some res, pgn := wr.fen.getD "" })
        wId Wkr.CntKind.wins 3) bId Wkr.CntKind.losses 0 := by
  have htw : truthyNat (some wId) = true := by simp [truthyNat, hw0]
  have htb : truthyNat (some bId) = true := by simp [truthyNat, hb0]
  simp [Wkr.wGameOver, htw, htb, hww, hwb]

theorem wkr_gameOver_b (db : Store.Db) (wr : Wkr.WRoom) (res : String)
    (wId bId : Nat)
    (hww : wr.whiteMeta.id = some wId) (hw0 : wId ≠ 0)
    (hwb : wr.blackMeta.id = some bId) (hb0 : bId ≠ 0) :
    Wkr.wGameOver wr db res (some "b") =
      Wkr.incUser (Wkr.incUser (Store.createGame db
        { whitePlayerId := some wId, blackPlayerId := some bId,
          result := some res, pgn := wr.fen.getD "" })
        bId Wkr.CntKind.wins 3) wId Wkr.CntKind.losses 0 := by
  have htw : truthyNat (some wId) = true := by simp [truthyNat, hw0]
  have htb : truthyNat (some bId) = true := by simp [truthyNat, hb0]
  simp [Wkr.wGameOver, htw, htb, hww, hwb]

theorem wkr_gameOver_draw (db : Store.Db) (wr : Wkr.WRoom) (res : String)
    (wId bId : Nat)
    (hww : wr.whiteMeta.id = some wId) (hw0 : wId ≠ 0)
    (hwb : wr.blackMeta.id = some bId) (hb0 : bId ≠ 0) :
    Wkr.wGameOver wr db res none =
      Wkr.incUser (Wkr.incUser (Store.createGame db
        { whitePlayerId := some wId, blackPlayerId := some bId,
          result := some res, pgn := wr.fen.getD "" })
        wId Wkr.CntKind.draws 0) bId Wkr.CntKind.draws 0 := by
  have htw : truthyNat (some wId) = true := by simp [truthyNat, hw0]
  have htb : truthyNat (some bId) = true := by simp [truthyNat, hb0]
  simp [Wkr.wGameOver, htw, htb, hww, hwb]

theorem bumpUser_wins (d : Nat) (u : Store.UserRec) :
    Wkr.bumpUser Wkr.CntKind.wins d u =
      { u with rating := u.rating + d, gamesPlayed := u.gamesPlayed + 1, wins := u.wins + 1 } := rfl

theorem bumpUser_losses (d : Nat) (u : Store.UserRec) :
    Wkr.bumpUser Wkr.CntKind.losses d u =
      { u with rating := u.rating + d, gamesPlayed := u.gamesPlayed + 1, losses := u.losses + 1 } := rfl

theorem bumpUser_draws (d : Nat) (u : Store.UserRec) :
    Wkr.bumpUser Wkr.CntKind.draws d u =
      { u with rating := u.rating + d, gamesPlayed := u.gamesPlayed + 1, draws := u.draws + 1 } := rfl

/-! ### C5 -/

/-- C5: settlement of a finished game with both seat identities known, in
both the express server's `game_over` handler (with
`DbStorage.updateUserRating`, which sets the rating and bumps
`gamesPlayed`) and the worker's `Room.handleGameOver`.  A finished-game
record with seat identities, final position snapshot and the result
string is appended; the winner's rating increases by exactly 3 and the
loser's rating is unchanged, both with `gamesPlayed` incremented by one;
on a draw both ratings are unchanged and `gamesPlayed` is still
incremented by one. -/
theorem c5_settlement (db : Store.Db) (r : Srv.Room) (wr : Wkr.WRoom)
    (ws wId bId : Nat) (res : String) (uw ub : Store.UserRec)
    (hw : r.whiteId = some wId) (hw0 : wId ≠ 0)
    (hb : r.blackId = some bId) (hb0 : bId ≠ 0) (hne : wId ≠ bId)
    (huw : Store.getUser db wId = some uw)
    (hub : Store.getUser db bId = some ub)
    (hww : wr.whiteMeta.id = some wId)
    (hwb : wr.blackMeta.id = some bId) :
    (Store.getUser
        (Srv.gameOverRoom (some r) ws (some res) (some "w") db).1 wId =
      some { uw with rating := uw.rating + 3, gamesPlayed := uw.gamesPlayed + 1 } ∧
     Store.getUser
        (Srv.gameOverRoom (some r) ws (some res) (some "w") db).1 bId =
      some { ub with gamesPlayed := ub.gamesPlayed + 1 } ∧
     (Srv.gameOverRoom (some r) ws (some res) (some "w") db).1.games =
      db.games ++
        [{ whitePlayerId := some wId, blackPlayerId := some bId,
           result := some res, pgn := r.fen.getD "" }]) ∧
    (Store.getUser
        (Srv.gameOverRoom (some r) ws (some res) (some "b") db).1 bId =
      some { ub with rating := ub.rating + 3, gamesPlayed := ub.gamesPlayed + 1 } ∧
     Store.getUser
        (Srv.gameOverRoom (some r) ws (some res) (some "b") db).1 wId =
      some { uw with gamesPlayed := uw.gamesPlayed + 1 } ∧
     (Srv.gameOverRoom (some r) ws (some res) (some "b") db).1.games =
      db.games ++
        [{ whitePlayerId := some wId, blackPlayerId := some bId,
           result := some res, pgn := r.fen.getD "" }]) ∧
    (Store.getUser
        (Srv.gameOverRoom (some r) ws (some res) none db).1 wId =
      some { uw with gamesPlayed := uw.gamesPlayed + 1 } ∧
     Store.getUser
        (Srv.gameOverRoom (some r) ws (some res) none db).1 bId =
      some { ub with gamesPlayed := ub.gamesPlayed + 1 } ∧
     (Srv.gameOverRoom (some r) ws (some res) none db).1.games =
      db.games ++
        [{ whitePlayerId := some wId, blackPlayerId := some bId,
           result := some res, pgn := r.fen.getD "" }]) ∧
    (Store.getUser (Wkr.wGameOver wr db res (some "w")) wId =
      some { uw with rating := uw.rating + 3, gamesPlayed := uw.gamesPlayed + 1, wins := uw.wins + 1 } ∧
     Store.getUser (Wkr.wGameOver wr db res (some "w")) bId =
      some { ub with gamesPlayed := ub.gamesPlayed + 1, losses := ub.losses + 1 } ∧
     (Wkr.wGameOver wr db res (some "w")).games =
      db.games ++
        [{ whitePlayerId := some wId, blackPlayerId := some bId,
           result := some res, pgn := wr.fen.getD "" }]) ∧
    (Store.getUser (Wkr.wGameOver wr db res (some "b")) bId =
      some { ub with rating := ub.rating + 3, gamesPlayed := ub.gamesPlayed + 1, wins := ub.wins + 1 } ∧
     Store.getUser (Wkr.wGameOver wr db res (some "b")) wId =
      some { uw with gamesPlayed := uw.gamesPlayed + 1, losses := uw.losses + 1 } ∧
     (Wkr.wGameOver wr db res (some "b")).games =
      db.games ++
        [{ whitePlayerId := some wId, blackPlayerId := some bId,
           result := some res, pgn := wr.fen.getD "" }]) ∧
    (Store.getUser (Wkr.wGameOver wr db res none) wId =
      some { uw with gamesPlayed := uw.gamesPlayed + 1, draws := uw.draws + 1 } ∧
     Store.getUser (Wkr.wGameOver wr db res none) bId =
      some { ub with gamesPlayed := ub.gamesPlayed + 1, draws := ub.draws + 1 } ∧
     (Wkr.wGameOver wr db res none).games =
      db.games ++
        [{ whitePlayerId := some wId, blackPlayerId := some bId,
           result := some res, pgn := wr.fen.getD "" }]) := by
  have hgw := srv_gameOver_w db r ws (some res) wId bId uw ub hw hw0 hb
    hb0 hne huw hub
  have hgb := srv_gameOver_b db r ws (some res) wId bId uw ub hw hw0 hb
    hb0 hne huw hub
  have hgd := srv_gameOver_draw db r ws (some res) wId bId uw ub hw hw0
    hb hb0 hne huw hub
  have hww3 := wkr_gameOver_w db wr res wId bId hww hw0 hwb hb0
  have hwb3 := wkr_gameOver_b db wr res wId bId hww hw0 hwb hb0
  have hwd3 := wkr_gameOver_draw db wr res wId bId hww hw0 hwb hb0
  have hcg : ∀ j, Store.getUser (Store.createGame db
      { whitePlayerId := some wId, blackPlayerId := some bId,
        result := some res, pgn := wr.fen.getD "" }) j =
      Store.getUser db j := fun j => rfl
  have huwCG := (hcg wId).trans huw
  have hubCG := (hcg bId).trans hub
  refine ⟨⟨?_, ?_, ?_⟩, ⟨?_, ?_, ?_⟩, ⟨?_, ?_, ?_⟩,
    ⟨?_, ?_, ?_⟩, ⟨?_, ?_, ?_⟩, ⟨?_, ?_, ?_⟩⟩
  · rw [hgw, getUser_createGame]
    exact (getUser_after_pair db wId bId (uw.rating + 3) ub.rating uw ub
      hne huw hub).1
  · rw [hgw, getUser_createGame]
    exact (getUser_after_pair db wId bId (uw.rating + 3) ub.rating uw ub
      hne huw hub).2
  · rw [hgw]
    show (Store.updateUserRating _ _ _).games ++ _ = _
    rw [games_updateUserRating, games_updateUserRating]
  · rw [hgb, getUser_createGame]
    exact (getUser_after_pair db bId wId (ub.rating + 3) uw.rating ub uw
      (Ne.symm hne) hub huw).1
  · rw [hgb, getUser_createGame]
    exact (getUser_after_pair db bId wId (ub.rating + 3) uw.rating ub uw
      (Ne.symm hne) hub huw).2
  · rw [hgb]
    show (Store.updateUserRating _ _ _).games ++ _ = _
    rw [games_updateUserRating, games_updateUserRating]
  · rw [hgd, getUser_createGame]
    exact (getUser_after_pair db wId bId uw.rating ub.rating uw ub
      hne huw hub).1
  · rw [hgd, getUser_createGame]
    exact (getUser_after_pair db wId bId uw.rating ub.rating uw ub
      hne huw hub).2
  · rw [hgd]
    show (Store.updateUserRating _ _ _).games ++ _ = _
    rw [games_updateUserRating, games_updateUserRating]
  · rw [hww3, (getUser_after_incPair _ wId bId Wkr.CntKind.wins
      Wkr.CntKind.losses 3 0 uw ub hne huwCG hubCG).1]
    simp [Wkr.bumpUser]
  · rw [hww3, (getUser_after_incPair _ wId bId Wkr.CntKind.wins
      Wkr.CntKind.losses 3 0 uw ub hne huwCG hubCG).2]
    simp [Wkr.bumpUser]
  · rw [hww3, games_incUser, games_incUser]
    rfl
  · rw [hwb3, (getUser_after_incPair _ bId wId Wkr.CntKind.wins
      Wkr.CntKind.losses 3 0 ub uw (Ne.symm hne) hubCG huwCG).1]
    simp [Wkr.bumpUser]
  · rw [hwb3, (getUser_after_incPair _ bId wId Wkr.CntKind.wins
      Wkr.CntKind.losses 3 0 ub uw (Ne.symm hne) hubCG huwCG).2]
    simp [Wkr.bumpUser]
  · rw [hwb3, games_incUser, games_incUser]
    rfl
  · rw [hwd3, (getUser_after_incPair _ wId bId Wkr.CntKind.draws
      Wkr.CntKind.draws 0 0 uw ub hne huwCG hubCG).1]
    simp [Wkr.bumpUser]
  · rw [hwd3, (getUser_after_incPair _ wId bId Wkr.CntKind.draws
      Wkr.CntKind.draws 0 0 uw ub hne huwCG hubCG).2]
    simp [Wkr.bumpUser]
  · rw [hwd3, games_incUser, games_incUser]
    rfl

/-- Witness for C5 at a concrete store: white (id 1, rating 10) beats
black (id 2, rating 20, 5 games) in the express server — white ends at
rating 13 with one game played; and a draw settled by the worker leaves
black at rating 20 with 6 games and one draw. -/
theorem c5_witness :
    Store.getUser (Srv.gameOverRoom
      (some { Srv.mkRoom with whiteId := some 1, blackId := some 2 }) 9
      (some "1-0") (some "w")
      { users := [{ id := 1, rating := 10, gamesPlayed := 0, wins := 0, losses := 0, draws := 0 }, { id := 2, rating := 20, gamesPlayed := 5, wins := 0, losses := 0, draws := 0 }], games := [] }).1 1 =
      some { id := 1, rating := 13, gamesPlayed := 1, wins := 0, losses := 0, draws := 0 } ∧
    Store.getUser (Wkr.wGameOver
      { Wkr.initRoom with whiteMeta := { id := some 1, username := some "a" }, blackMeta := { id := some 2, username := some "c" } }
      { users := [{ id := 1, rating := 10, gamesPlayed := 0, wins := 0, losses := 0, draws := 0 }, { id := 2, rating := 20, gamesPlayed := 5, wins := 0, losses := 0, draws := 0 }], games := [] }
      "1-0" none) 2 =
      some { id := 2, rating := 20, gamesPlayed := 6, wins := 0, losses := 0, draws := 1 } := by
  have h := c5_settlement
    { users := [{ id := 1, rating := 10, gamesPlayed := 0, wins := 0, losses := 0, draws := 0 }, { id := 2, rating := 20, gamesPlayed := 5, wins := 0, losses := 0, draws := 0 }], games := [] }
    { Srv.mkRoom with whiteId := some 1, blackId := some 2 }
    { Wkr.initRoom with whiteMeta := { id := some 1, username := some "a" }, blackMeta := { id := some 2, username := some "c" } }
    9 1 2 "1-0"
    { id := 1, rating := 10, gamesPlayed := 0, wins := 0, losses := 0, draws := 0 }
    { id := 2, rating := 20, gamesPlayed := 5, wins := 0, losses := 0, draws := 0 }
    rfl (by decide) rfl (by decide) (by decide) rfl rfl rfl rfl
  exact ⟨by simpa using h.1.1, by simpa using h.2.2.2.2.2.2.1⟩

/-! ### C4 -/

/-- C4 counterexample: the claim includes connections that send `join`
more than once.  In the express server, after joins by 1, 2 and 3
(3 becomes a spectator), 2 closing frees the black seat; when 3 then
sends `join` again it is assigned the black seat without being removed
from the spectator set — connection 3 is simultaneously a seat-holder and
a spectator, violating the claimed invariant. -/
theorem c4_counterexample :
    (Srv.runRoom [Srv.Ev.join 1 none none, Srv.Ev.join 2 none none,
      Srv.Ev.join 3 none none, Srv.Ev.close 2,
      Srv.Ev.join 3 none none]).black = some 3 ∧
    3 ∈ (Srv.runRoom [Srv.Ev.join 1 none none, Srv.Ev.join 2 none none,
      Srv.Ev.join 3 none none, Srv.Ev.close 2,
      Srv.Ev.join 3 none none]).spectators ∧
    ¬ Srv.SeatSpectatorOK (Srv.runRoom [Srv.Ev.join 1 none none,
      Srv.Ev.join 2 none none, Srv.Ev.join 3 none none, Srv.Ev.close 2,
      Srv.Ev.join 3 none none]) := by
  refine ⟨by decide, by decide, fun h => ?_⟩
  exact absurd (by decide : (Srv.runRoom [Srv.Ev.join 1 none none,
    Srv.Ev.join 2 none none, Srv.Ev.join 3 none none, Srv.Ev.close 2,
    Srv.Ev.join 3 none none]).black = some 3)
    (h.1 3 (by decide)).2

theorem assignSeat_clients (r : Srv.Room) (ws : Nat) (uid : Option Nat)
    (un : Option String) :
    ((Srv.assignSeat r ws uid un).1).clients = addSet r.clients ws := by
  unfold Srv.assignSeat
  split
  · rfl
  · split <;> rfl

theorem joinState_clients (r : Srv.Room) (ws : Nat) (uid : Option Nat)
    (un : Option String) :
    (Srv.joinState r ws uid un).clients = addSet r.clients ws := by
  simp only [Srv.joinState]
  split
  · exact assignSeat_clients r ws uid un
  · exact assignSeat_clients r ws uid un

theorem roomWF_assignSeat (r : Srv.Room) (ws : Nat) (uid : Option Nat)
    (un : Option String) (h : Srv.RoomWF r) (hws : ws ∉ r.clients) :
    Srv.RoomWF ((Srv.assignSeat r ws uid un).1) := by
  rcases h with ⟨hnc, hns, hsc, hwc, hbc, hdisj, hneq⟩
  cases hwo : r.white with
  | none =>
    have heq : (Srv.assignSeat r ws uid un).1 = { r with
        clients := addSet r.clients ws
        white := some ws
        whiteId := if truthyNat uid then uid else r.whiteId
        whiteUsername := if un.isSome then un else r.whiteUsername } := by
      simp [Srv.assignSeat, hwo]
    rw [heq]
    refine ⟨addSet_nodup _ _ hnc, hns,
      fun c hc => subset_addSet _ _ (hsc c hc), ?_,
      fun c hc => subset_addSet _ _ (hbc c hc), ?_, ?_⟩
    · intro c
      show some ws = some c → c ∈ addSet r.clients ws
      intro hc
      rw [← Option.some_inj.mp hc]
      exact addSet_mem_self _ _
    · intro c hc
      show ¬some ws = some c ∧ ¬r.black = some c
      refine ⟨?_, (hdisj c hc).2⟩
      intro hcc
      rw [← Option.some_inj.mp hcc] at hc
      exact hws (hsc ws hc)
    · intro cw cb
      show some ws = some cw → r.black = some cb → cw ≠ cb
      intro hcw hcb hwb
      apply hws
      rw [Option.some_inj.mp hcw, hwb]
      exact hbc cb hcb
  | some w =>
    cases hbo : r.black with
    | none =>
      have heq : (Srv.assignSeat r ws uid un).1 = { r with
          clients := addSet r.clients ws
          black := some ws
          blackId := if truthyNat uid then uid else r.blackId
          blackUsername := if un.isSome then un else r.blackUsername }
          := by
        simp [Srv.assignSeat, hwo, hbo]
      rw [heq]
      refine ⟨addSet_nodup _ _ hnc, hns,
        fun c hc => subset_addSet _ _ (hsc c hc),
        fun c hc => subset_addSet _ _ (hwc c hc), ?_, ?_, ?_⟩
      · intro c
        show some ws = some c → c ∈ addSet r.clients ws
        intro hc
        rw [← Option.some_inj.mp hc]
        exact addSet_mem_self _ _
      · intro c hc
        show ¬r.white = some c ∧ ¬some ws = some c
        refine ⟨(hdisj c hc).1, ?_⟩
        intro hcc
        rw [← Option.some_inj.mp hcc] at hc
        exact hws (hsc ws hc)
      · intro cw cb
        show r.white = some cw → some ws = some cb → cw ≠ cb
        intro hcw hcb hwb
        apply hws
        rw [Option.some_inj.mp hcb, ← hwb]
        exact hwc cw hcw
    | some b =>
      have heq : (Srv.assignSeat r ws uid un).1 = { r with
          clients := addSet r.clients ws
          spectators := addSet r.spectators ws } := by
        simp [Srv.assignSeat, hwo, hbo]
      rw [heq]
      refine ⟨addSet_nodup _ _ hnc, addSet_nodup _ _ hns, ?_,
        fun c hc => subset_addSet _ _ (hwc c hc),
        fun c hc => subset_addSet _ _ (hbc c hc), ?_, hneq⟩
      · intro c hc
        rcases (mem_addSet _ _ _).mp hc with hcw | hcs
        · rw [hcw]
          exact addSet_mem_self _ _
        · exact subset_addSet _ _ (hsc c hcs)
      · intro c hc
        rcases (mem_addSet _ _ _).mp hc with hcw | hcs
        · constructor
          · intro hcc
            apply hws
            rw [← hcw]
            exact hwc c hcc
          · intro hcc
            apply hws
            rw [← hcw]
            exact hbc c hcc
        · exact hdisj c hcs

theorem closeRoom_state (r : Srv.Room) (ws : Nat) (hmem : ws ∈ r.clients) :
    (Srv.closeRoom r ws).1 = { r with
      clients := r.clients.erase ws
      white := if r.white = some ws then none else r.white
      black := if r.black = some ws then none else r.black
      spectators := r.spectators.erase ws } := by
  simp [Srv.closeRoom, hmem]

theorem closeRoom_state_not (r : Srv.Room) (ws : Nat)
    (hmem : ws ∉ r.clients) : (Srv.closeRoom r ws).1 = r := by
  simp [Srv.closeRoom, hmem]

theorem closeRoom_clients_subset (r : Srv.Room) (ws : Nat) :
    ∀ c ∈ ((Srv.closeRoom r ws).1).clients, c ∈ r.clients := by
  intro c hc
  by_cases hmem : ws ∈ r.clients
  · rw [closeRoom_state r ws hmem] at hc
    exact List.mem_of_mem_erase hc
  · rw [closeRoom_state_not r ws hmem] at hc
    exact hc

theorem roomWF_closeRoom (r : Srv.Room) (ws : Nat) (h : Srv.RoomWF r) :
    Srv.RoomWF ((Srv.closeRoom r ws).1) := by
  rcases h with ⟨hnc, hns, hsc, hwc, hbc, hdisj, hneq⟩
  by_cases hmem : ws ∈ r.clients
  · rw [closeRoom_state r ws hmem]
    refine ⟨hnc.erase ws, hns.erase ws, ?_, ?_, ?_, ?_, ?_⟩
    · intro c
      show c ∈ r.spectators.erase ws → c ∈ r.clients.erase ws
      intro hc
      have hc2 := (hns.mem_erase_iff).mp hc
      exact (List.mem_erase_of_ne hc2.1).mpr (hsc c hc2.2)
    · intro c
      show (if r.white = some ws then none else r.white) = some c →
        c ∈ r.clients.erase ws
      intro hc
      by_cases hb : r.white = some ws
      · rw [if_pos hb] at hc
        exact absurd hc (by simp)
      · rw [if_neg hb] at hc
        have hcne : c ≠ ws := by
          intro hh
          rw [hh] at hc
          exact hb hc
        exact (List.mem_erase_of_ne hcne).mpr (hwc c hc)
    · intro c
      show (if r.black = some ws then none else r.black) = some c →
        c ∈ r.clients.erase ws
      intro hc
      by_cases hb : r.black = some ws
      · rw [if_pos hb] at hc
        exact absurd hc (by simp)
      · rw [if_neg hb] at hc
        have hcne : c ≠ ws := by
          intro hh
          rw [hh] at hc
          exact hb hc
        exact (List.mem_erase_of_ne hcne).mpr (hbc c hc)
    · intro c
      show c ∈ r.spectators.erase ws →
        ¬(if r.white = some ws then none else r.white) = some c ∧
        ¬(if r.black = some ws then none else r.black) = some c
      intro hc
      have hc2 := (hns.mem_erase_iff).mp hc
      constructor
      · by_cases hb : r.white = some ws
        · rw [if_pos hb]
          simp
        · rw [if_neg hb]
          exact (hdisj c hc2.2).1
      · by_cases hb : r.black = some ws
        · rw [if_pos hb]
          simp
        · rw [if_neg hb]
          exact (hdisj c hc2.2).2
    · intro cw cb
      show (if r.white = some ws then none else r.white) = some cw →
        (if r.black = some ws then none else r.black) = some cb →
        cw ≠ cb
      intro hcw hcb
      by_cases hb1 : r.white = some ws
      · rw [if_pos hb1] at hcw
        exact absurd hcw (by simp)
      · rw [if_neg hb1] at hcw
        by_cases hb2 : r.black = some ws
        · rw [if_pos hb2] at hcb
          exact absurd hcb (by simp)
        · rw [if_neg hb2] at hcb
          exact hneq cw cb hcw hcb
  · rw [closeRoom_state_not r ws hmem]
    exact ⟨hnc, hns, hsc, hwc, hbc, hdisj, hneq⟩

theorem runRoom_wf_aux (t : List Srv.Ev) (r : Srv.Room) (done : List Nat)
    (hwf : Srv.RoomWF r) (hcl : ∀ c ∈ r.clients, c ∈ done)
    (hnew : ∀ x ∈ Srv.joinConns t, x ∉ done)
    (hnd : (Srv.joinConns t).Nodup) :
    Srv.RoomWF (t.foldl Srv.stepRoom r) := by
  induction t generalizing r done with
  | nil => exact hwf
  | cons ev rest ih =>
    cases ev with
    | join ws uid un =>
      have hjc : Srv.joinConns (Srv.Ev.join ws uid un :: rest) =
          ws :: Srv.joinConns rest := rfl
      rw [hjc] at hnew hnd
      have hwsdone : ws ∉ done := hnew ws (List.mem_cons_self ws _)
      have hws : ws ∉ r.clients := fun hc => hwsdone (hcl ws hc)
      have hwf2 : Srv.RoomWF (Srv.joinState r ws uid un) := by
        simp only [Srv.joinState]
        split
        · exact roomWF_assignSeat r ws uid un hwf hws
        · exact roomWF_assignSeat r ws uid un hwf hws
      refine ih (Srv.joinState r ws uid un) (ws :: done) hwf2 ?_ ?_
        (List.Nodup.of_cons hnd)
      · intro c hc
        rw [joinState_clients] at hc
        rcases (mem_addSet _ _ _).mp hc with rfl | hcc
        · exact List.mem_cons_self _ _
        · exact List.mem_cons_of_mem _ (hcl c hcc)
      · intro x hx
        intro hxd
        rcases List.mem_cons.mp hxd with rfl | hxd2
        · exact (List.nodup_cons.mp hnd).1 hx
        · exact hnew x (List.mem_cons_of_mem _ hx) hxd2
    | close ws =>
      refine ih ((Srv.closeRoom r ws).1) done
        (roomWF_closeRoom r ws hwf) ?_ hnew hnd
      intro c hc
      exact hcl c (closeRoom_clients_subset r ws c hc)

/-- C4 amended: over any sequence of join and close events in which no
connection sends `join` more than once, each seat is held by at most one
connection, the two seats are held by distinct connections when both are
occupied, and no connection is simultaneously a seat-holder and a member
of the spectator set.  (The original claim's allowance for repeated
`join` from the same connection is dropped: as the counterexample shows,
a spectator that rejoins after a seat frees takes the seat while staying
in the spectator set.) -/
theorem c4_amended (t : List Srv.Ev) (h : (Srv.joinConns t).Nodup) :
    Srv.SeatSpectatorOK (Srv.runRoom t) := by
  have hwf : Srv.RoomWF Srv.mkRoom := by
    refine ⟨List.nodup_nil, List.nodup_nil, ?_, ?_, ?_, ?_, ?_⟩ <;>
      simp [Srv.mkRoom, Srv.SeatSpectatorOK]
  have h2 := runRoom_wf_aux t Srv.mkRoom [] hwf
    (by simp [Srv.mkRoom]) (by simp) h
  exact h2.2.2.2.2.2

/-- Witness for C4 amended: a three-join trace (white, black, spectator)
with pairwise distinct connections satisfies the invariant. -/
theorem c4_witness :
    (Srv.joinConns [Srv.Ev.join 1 none none, Srv.Ev.join 2 none none,
      Srv.Ev.join 3 none none]).Nodup ∧
    Srv.SeatSpectatorOK (Srv.runRoom [Srv.Ev.join 1 none none,
      Srv.Ev.join 2 none none, Srv.Ev.join 3 none none]) :=
  ⟨by decide, c4_amended [Srv.Ev.join 1 none none,
    Srv.Ev.join 2 none none, Srv.Ev.join 3 none none] (by decide)⟩

end Cvua
